import Mathlib

/-!
Verification of the sermmde PMX binary model decoder.

The Rust sources are shallowly embedded. A byte stream is a list of
natural numbers, each element standing for one byte of the underlying
reader. Fallible code returns Except with one error inductive per source
module, mirroring the error enums of the repository. Machine integers are
Nat or Int with explicit reduction modulo powers of two, and f32 values
are carried as their 32-bit patterns, with IEEE-754 binary32 arithmetic
spelled out where the source computes with floats.
-/

namespace Sermmde

/-- A parser consumes a prefix of a byte stream and either fails with an
error or returns a value together with the remaining stream. This models
sequential reading from the buffered reader threaded through the source. -/
def ParseM (ε α : Type) : Type := List Nat → Except ε (α × List Nat)

/-- Models read_exact of the standard Read trait: take n bytes from the
stream or fail with the given IO error when the stream ends early. -/
def readExact (ioErr : ε) (n : Nat) : ParseM ε (List Nat) := fun s =>
  if n ≤ s.length then .ok (s.take n, s.drop n) else .error ioErr

/-- Sequencing of a parse step with its continuation: an error propagates
unchanged, a success feeds the value and the remaining stream onward. This
models the question mark operator between reads in the source. -/
def pbind (m : Except ε (α × List Nat)) (f : α → List Nat → Except ε (β × List Nat)) :
    Except ε (β × List Nat) :=
  match m with
  | .error e => .error e
  | .ok (a, s) => f a s

/-- Sequencing of a plain fallible step, such as an enum conversion, with
its continuation. -/
def ebind (m : Except ε α) (f : α → Except ε β) : Except ε β :=
  match m with
  | .error e => .error e
  | .ok a => f a

/-- Map over the error of a fallible step, modelling the from conversion
the question mark operator applies across module error enums. -/
def emap (g : ε → ε2) (m : Except ε α) : Except ε2 α :=
  match m with
  | .error e => .error (g e)
  | .ok a => .ok a

/-- Equality of Except values is decidable when it is on both sides. -/
instance [DecidableEq ε] [DecidableEq α] : DecidableEq (Except ε α) := fun a b =>
  match a, b with
  | .ok x, .ok y =>
    if h : x = y then .isTrue (by rw [h]) else .isFalse (by intro hc; cases hc; exact h rfl)
  | .error x, .error y =>
    if h : x = y then .isTrue (by rw [h]) else .isFalse (by intro hc; cases hc; exact h rfl)
  | .ok _, .error _ => .isFalse (by intro hc; cases hc)
  | .error _, .ok _ => .isFalse (by intro hc; cases hc)

/-- Models u8 from a one byte buffer. The source reads into fixed-size
arrays, so the buffer always has the exact width and the catch-all arms
below are never reached on inputs produced by a read. -/
def u8FromLe (l : List Nat) : Nat :=
  match l with
  | b0 :: _ => b0 % 256
  | _ => 0

/-- Models u16 from_le_bytes on a two byte buffer. -/
def u16FromLe (l : List Nat) : Nat :=
  match l with
  | b0 :: b1 :: _ => b0 % 256 + 256 * (b1 % 256)
  | _ => 0

/-- Models u32 from_le_bytes on a four byte buffer; also the 32-bit
pattern of an f32 read with f32 from_le_bytes. -/
def u32FromLe (l : List Nat) : Nat :=
  match l with
  | b0 :: b1 :: b2 :: b3 :: _ =>
    b0 % 256 + 256 * (b1 % 256) + 65536 * (b2 % 256) + 16777216 * (b3 % 256)
  | _ => 0

/-- Models i8 from_le_bytes as a mathematical integer. -/
def i8FromLe (l : List Nat) : Int :=
  let u := u8FromLe l
  if 128 ≤ u then (u : Int) - 256 else (u : Int)

/-- Models i16 from_le_bytes as a mathematical integer. -/
def i16FromLe (l : List Nat) : Int :=
  let u := u16FromLe l
  if 32768 ≤ u then (u : Int) - 65536 else (u : Int)

/-- Models i32 from_le_bytes as a mathematical integer. -/
def i32FromLe (l : List Nat) : Int :=
  let u := u32FromLe l
  if 2147483648 ≤ u then (u : Int) - 4294967296 else (u : Int)

/-! Embedding of src/util.rs. -/

/-- The error enum of src/util.rs. -/
inductive UtilError where
  | utf16LeError
  | fromUtf16Error
  | decodeUtf16Error
deriving DecidableEq, Repr

/-- Pair consecutive bytes into little-endian 16-bit code units, as the
chunking by two and u16 from_le_bytes do in from_utf16le. -/
def utf16UnitsLe : List Nat → List Nat
  | b0 :: b1 :: rest => (b0 % 256 + 256 * (b1 % 256)) :: utf16UnitsLe rest
  | _ => []

/-- Decode a list of UTF-16 code units to scalar values, failing on any
unpaired surrogate, as char decode_utf16 and String from_utf16 do. The
source surfaces either the FromUtf16Error or the DecodeUtf16Error variant
for this failure depending on buffer alignment at runtime; the model uses
the decodeUtf16Error variant throughout, the failure condition being
identical on both paths. -/
def decodeUtf16Units : List Nat → Except UtilError (List Nat)
  | [] => .ok []
  | u :: rest =>
    if u < 0xD800 ∨ 0xDFFF < u then
      match decodeUtf16Units rest with
      | .ok tail => .ok (u :: tail)
      | .error e => .error e
    else if u ≤ 0xDBFF then
      match rest with
      | u2 :: rest2 =>
        if 0xDC00 ≤ u2 ∧ u2 ≤ 0xDFFF then
          match decodeUtf16Units rest2 with
          | .ok tail => .ok ((0x10000 + (u - 0xD800) * 0x400 + (u2 - 0xDC00)) :: tail)
          | .error e => .error e
        else .error .decodeUtf16Error
      | [] => .error .decodeUtf16Error
    else .error .decodeUtf16Error

/-- Embedding of from_utf16le in src/util.rs: an odd byte count fails with
the Utf16LeError variant before any decoding, otherwise the bytes are
paired little-endian and decoded as UTF-16. The decoded string is carried
as its list of scalar values. -/
def fromUtf16le (v : List Nat) : Except UtilError (List Nat) :=
  if v.length % 2 = 1 then .error .utf16LeError
  else decodeUtf16Units (utf16UnitsLe v)

/-! Embedding of src/types.rs. -/

/-- The error enum of src/types.rs. The io constructor stands for the
wrapped std::io::Error, util wraps the util module error, and fromUtf8
stands for the wrapped std::str::Utf8Error. -/
inductive TypesError where
  | io
  | util (e : UtilError)
  | negativeLength
  | invalidTextEncoding
  | fromUtf8
  | indexSizeMismatch
deriving DecidableEq, Repr

/-- The TextEncoding enum of src/types.rs. -/
inductive TextEncoding where
  | utf16le
  | utf8
deriving DecidableEq, Repr

/-- TryFrom of a byte for TextEncoding. -/
def TextEncoding.tryFrom (value : Nat) : Except TypesError TextEncoding :=
  match value with
  | 0 => .ok .utf16le
  | 1 => .ok .utf8
  | _ => .error .invalidTextEncoding

/-- The IndexSize enum of src/types.rs. In the source each variant carries
the raw read buffer of the matching width; the buffer is only a scratch
area for the read, so the embedding keeps the width tag and passes the
bytes explicitly. -/
inductive IndexSize where
  | size1
  | size2
  | size4
deriving DecidableEq, Repr

/-- The byte width selected by an IndexSize. -/
def IndexSize.byteCount : IndexSize → Nat
  | .size1 => 1
  | .size2 => 2
  | .size4 => 4

/-- TryFrom of a byte for IndexSize. -/
def IndexSize.tryFrom (value : Nat) : Except TypesError IndexSize :=
  match value with
  | 1 => .ok .size1
  | 2 => .ok .size2
  | 4 => .ok .size4
  | _ => .error .indexSizeMismatch

/-- The Index struct of src/types.rs. -/
structure Index where
  size : IndexSize
  sign : Bool
  value : Int
deriving DecidableEq, Repr

/-- The value computation inside Index parse: one byte read as i8 or u8,
two bytes as i16 or u16, and four bytes always as i32 regardless of the
sign flag, exactly as the match in the source does. -/
def indexValue (size : IndexSize) (sign : Bool) (raw : List Nat) : Int :=
  match size with
  | .size1 => if sign then i8FromLe raw else (u8FromLe raw : Int)
  | .size2 => if sign then i16FromLe raw else (u16FromLe raw : Int)
  | .size4 => i32FromLe raw

/-- Embedding of Index parse: read exactly the declared width and
reinterpret the bytes according to width and sign flag. -/
def Index.parse (size : IndexSize) (sign : Bool) : ParseM TypesError Index := fun s =>
  pbind (readExact .io size.byteCount s) fun raw s1 =>
    .ok (⟨size, sign, indexValue size sign raw⟩, s1)

/-- Embedding of Index is_nil: true exactly when the decoded value is -1. -/
def Index.isNil (i : Index) : Bool := i.value == -1

/-- The result of decoding the raw bytes of a PmxText under its declared
encoding: UTF-8 validation via str from_utf8, modelled by decodeUtf8
below, or UTF-16LE decoding via from_utf16le. -/
def decodeUtf8 : List Nat → Option (List Nat)
  | [] => some []
  | b :: rest =>
    if b < 0x80 then
      match decodeUtf8 rest with
      | some tail => some (b :: tail)
      | none => none
    else if b < 0xC2 then none
    else if b ≤ 0xDF then
      match rest with
      | b1 :: rest1 =>
        if 0x80 ≤ b1 ∧ b1 ≤ 0xBF then
          match decodeUtf8 rest1 with
          | some tail => some (((b - 0xC0) * 64 + (b1 - 0x80)) :: tail)
          | none => none
        else none
      | [] => none
    else if b ≤ 0xEF then
      match rest with
      | b1 :: b2 :: rest2 =>
        let lo1 := if b = 0xE0 then 0xA0 else 0x80
        let hi1 := if b = 0xED then 0x9F else 0xBF
        if (lo1 ≤ b1 ∧ b1 ≤ hi1) ∧ (0x80 ≤ b2 ∧ b2 ≤ 0xBF) then
          match decodeUtf8 rest2 with
          | some tail =>
            some (((b - 0xE0) * 4096 + (b1 - 0x80) * 64 + (b2 - 0x80)) :: tail)
          | none => none
        else none
      | _ => none
    else if b ≤ 0xF4 then
      match rest with
      | b1 :: b2 :: b3 :: rest3 =>
        let lo1 := if b = 0xF0 then 0x90 else 0x80
        let hi1 := if b = 0xF4 then 0x8F else 0xBF
        if (lo1 ≤ b1 ∧ b1 ≤ hi1) ∧ (0x80 ≤ b2 ∧ b2 ≤ 0xBF) ∧ (0x80 ≤ b3 ∧ b3 ≤ 0xBF) then
          match decodeUtf8 rest3 with
          | some tail =>
            some (((b - 0xF0) * 262144 + (b1 - 0x80) * 4096 + (b2 - 0x80) * 64 +
              (b3 - 0x80)) :: tail)
          | none => none
        else none
      | _ => none
    else none

/-- The PmxText struct of src/types.rs: raw bytes, the encoding they were
read under, and the eagerly decoded string, carried as scalar values. -/
structure PmxText where
  raw_bytes : List Nat
  encoding : TextEncoding
  decoded : List Nat
deriving DecidableEq, Repr

/-- The encoding dispatch inside PmxText from_bytes: UTF-8 validation
failing with the wrapped Utf8Error, or UTF-16LE decoding failing with the
wrapped util error. -/
def decodeText (encoding : TextEncoding) (raw : List Nat) : Except TypesError (List Nat) :=
  match encoding with
  | .utf8 =>
    match decodeUtf8 raw with
    | some scalars => .ok scalars
    | none => .error .fromUtf8
  | .utf16le =>
    match fromUtf16le raw with
    | .ok scalars => .ok scalars
    | .error e => .error (.util e)

/-- Embedding of PmxText from_bytes in src/types.rs: a four byte signed
little-endian length, failing with NegativeLength when negative, then
exactly that many raw bytes, decoded eagerly under the given encoding. -/
def PmxText.fromBytes (encoding : TextEncoding) : ParseM TypesError PmxText := fun s =>
  pbind (readExact .io 4 s) fun lenBytes s1 =>
    let len := i32FromLe lenBytes
    if len < 0 then .error .negativeLength
    else
      pbind (readExact .io len.toNat s1) fun raw s2 =>
        ebind (decodeText encoding raw) fun decoded =>
          .ok (⟨raw, encoding, decoded⟩, s2)

/-! Embedding of src/vertex.rs. -/

/-- The error enum of src/vertex.rs. -/
inductive VertexError where
  | indexSizeMismatch
  | io
  | negativeSize
  | invalidWeightDeformType
  | typeError (e : TypesError)
deriving DecidableEq, Repr

/-- An f32 triple carried as three 32-bit patterns, modelling Vec3. -/
abbrev Vec3 : Type := Nat × Nat × Nat

/-- An f32 pair carried as two 32-bit patterns, modelling Vec2. -/
abbrev Vec2 : Type := Nat × Nat

/-- An f32 quadruple carried as four 32-bit patterns, modelling Vec4. -/
abbrev Vec4 : Type := Nat × Nat × Nat × Nat

/-- Split a 12 byte buffer into three little-endian f32 patterns, as the
chunking by four and f32 from_le_bytes do for a Vec3 read. -/
def vec3Of (l : List Nat) : Vec3 :=
  (u32FromLe (l.take 4), u32FromLe ((l.drop 4).take 4), u32FromLe ((l.drop 8).take 4))

/-- Split an 8 byte buffer into two little-endian f32 patterns. -/
def vec2Of (l : List Nat) : Vec2 := (u32FromLe (l.take 4), u32FromLe ((l.drop 4).take 4))

/-- Split a 16 byte buffer into four little-endian f32 patterns. -/
def vec4Of (l : List Nat) : Vec4 :=
  (u32FromLe (l.take 4), u32FromLe ((l.drop 4).take 4), u32FromLe ((l.drop 8).take 4),
    u32FromLe ((l.drop 12).take 4))

/-- Read 12 bytes and decode them as a Vec3. -/
def readVec3 (ioErr : ε) : ParseM ε Vec3 := fun s =>
  pbind (readExact ioErr 12 s) fun b s1 => .ok (vec3Of b, s1)

/-- Read 16 bytes and decode them as a Vec4. -/
def readVec4 (ioErr : ε) : ParseM ε Vec4 := fun s =>
  pbind (readExact ioErr 16 s) fun b s1 => .ok (vec4Of b, s1)

/-- Round the dyadic rational n divided by 2 to the 149 to the nearest
IEEE-754 binary32 value, ties to even, returning the 32-bit pattern. An
exact zero result returns positive zero. Any finite binary32 value is an
integer multiple of 2 to the minus 149, so this covers every rounding the
expression one minus x can require. -/
def roundDyadic149 (n : Int) : Nat :=
  if n = 0 then 0
  else
    let sgn : Nat := if n < 0 then 1 else 0
    let a : Nat := n.natAbs
    let k := Nat.log2 a + 1
    if k ≤ 24 then
      sgn * 2 ^ 31 + a
    else
      let sh := k - 24
      let q := a / 2 ^ sh
      let r := a % 2 ^ sh
      let half := 2 ^ (sh - 1)
      let q2 := if half < r ∨ (r = half ∧ q % 2 = 1) then q + 1 else q
      let m := if q2 = 2 ^ 24 then 2 ^ 23 else q2
      let e2 := if q2 = 2 ^ 24 then sh + 1 else sh
      let E := e2 + 1
      if 255 ≤ E then sgn * 2 ^ 31 + 255 * 2 ^ 23
      else sgn * 2 ^ 31 + E * 2 ^ 23 + (m - 2 ^ 23)

/-- IEEE-754 binary32 evaluation of one minus x on 32-bit patterns,
modelling the Rust f32 expression 1.0 - w. A NaN operand gives the
canonical quiet NaN pattern; infinities negate; every finite case is the
exact difference rounded to nearest, ties to even. -/
def f32OneMinus (bits : Nat) : Nat :=
  let b := bits % 2 ^ 32
  let s := b / 2 ^ 31
  let e := b / 2 ^ 23 % 2 ^ 8
  let f := b % 2 ^ 23
  if e = 255 then
    if f ≠ 0 then 0x7FC00000
    else if s = 1 then 0x7F800000
    else 0xFF800000
  else
    let m : Nat := if e = 0 then f else 2 ^ 23 + f
    let sh : Nat := if e = 0 then 0 else e - 1
    let mag : Int := (m : Int) * 2 ^ sh
    roundDyadic149 (2 ^ 149 - (if s = 1 then -mag else mag))

/-- The WeightDeform enum of src/vertex.rs. The fixed-arity index and
weight arrays of the source are laid out as individual fields; weights are
f32 bit patterns. -/
inductive WeightDeform where
  | bdef1 (index : Index)
  | bdef2 (index0 index1 : Index) (weight0 weight1 : Nat)
  | bdef4 (index0 index1 index2 index3 : Index) (weight0 weight1 weight2 weight3 : Nat)
  | sdef (index0 index1 : Index) (weight0 weight1 : Nat) (c r0 r1 : Vec3)
  | qdef (index0 index1 index2 index3 : Index) (weight0 weight1 weight2 weight3 : Nat)
deriving DecidableEq, Repr

/-- Lift a parser over the types module error into the vertex module error,
modelling the from conversion applied by the question mark operator. -/
def liftTypes (m : ParseM TypesError α) : ParseM VertexError α := fun s =>
  emap .typeError (m s)

/-- Embedding of WeightDeform parse: dispatch on the one byte type tag.
Tags 1 and 3 read a single stored weight and derive the second one as one
minus the stored value; tags 2 and 4 read four independent weights; tag 3
additionally reads the three Vec3 fields c, r0 and r1 in order; any tag
above 4 fails with InvalidWeightDeformType. -/
def WeightDeform.parse (typ : Nat) (size : IndexSize) (index_sign : Bool) :
    ParseM VertexError WeightDeform := fun s =>
  match typ with
  | 0 =>
    pbind (liftTypes (Index.parse size index_sign) s) fun index s1 =>
      .ok (.bdef1 index, s1)
  | 1 =>
    pbind (liftTypes (Index.parse size index_sign) s) fun i0 s1 =>
      pbind (liftTypes (Index.parse size index_sign) s1) fun i1 s2 =>
        pbind (readExact .io 4 s2) fun wb s3 =>
          let w0 := u32FromLe wb
          .ok (.bdef2 i0 i1 w0 (f32OneMinus w0), s3)
  | 2 =>
    pbind (liftTypes (Index.parse size index_sign) s) fun i0 s1 =>
      pbind (liftTypes (Index.parse size index_sign) s1) fun i1 s2 =>
        pbind (liftTypes (Index.parse size index_sign) s2) fun i2 s3 =>
          pbind (liftTypes (Index.parse size index_sign) s3) fun i3 s4 =>
            pbind (readExact .io 16 s4) fun wb s5 =>
              .ok (.bdef4 i0 i1 i2 i3 (u32FromLe (wb.take 4))
                (u32FromLe ((wb.drop 4).take 4)) (u32FromLe ((wb.drop 8).take 4))
                (u32FromLe ((wb.drop 12).take 4)), s5)
  | 3 =>
    pbind (liftTypes (Index.parse size index_sign) s) fun i0 s1 =>
      pbind (liftTypes (Index.parse size index_sign) s1) fun i1 s2 =>
        pbind (readExact .io 4 s2) fun wb s3 =>
          let w0 := u32FromLe wb
          pbind (readVec3 VertexError.io s3) fun c s4 =>
            pbind (readVec3 VertexError.io s4) fun r0 s5 =>
              pbind (readVec3 VertexError.io s5) fun r1 s6 =>
                .ok (.sdef i0 i1 w0 (f32OneMinus w0) c r0 r1, s6)
  | 4 =>
    pbind (liftTypes (Index.parse size index_sign) s) fun i0 s1 =>
      pbind (liftTypes (Index.parse size index_sign) s1) fun i1 s2 =>
        pbind (liftTypes (Index.parse size index_sign) s2) fun i2 s3 =>
          pbind (liftTypes (Index.parse size index_sign) s3) fun i3 s4 =>
            pbind (readExact .io 16 s4) fun wb s5 =>
              .ok (.qdef i0 i1 i2 i3 (u32FromLe (wb.take 4))
                (u32FromLe ((wb.drop 4).take 4)) (u32FromLe ((wb.drop 8).take 4))
                (u32FromLe ((wb.drop 12).take 4)), s5)
  | _ => .error .invalidWeightDeformType

/-- The Vertex struct of src/vertex.rs, with float fields as bit patterns. -/
structure Vertex where
  pos : Vec3
  normal : Vec3
  uv : Vec2
  extra_vec4 : Option (List Vec4)
  weight_deform : WeightDeform
  edge_scale : Nat
deriving DecidableEq, Repr

/-- Read a fixed number of Vec4 values in sequence, modelling the loop
filling the optional extra vector list of a vertex. -/
def readVec4List (n : Nat) : ParseM VertexError (List Vec4) := fun s =>
  match n with
  | 0 => .ok ([], s)
  | k + 1 =>
    pbind (readVec4 VertexError.io s) fun v s1 =>
      pbind (readVec4List k s1) fun vs s2 => .ok (v :: vs, s2)

/-- Embedding of Vertex parse: position, normal, uv, the optional extra
Vec4 list when the global count is nonzero, the one byte weight-deform tag,
the index size conversion, the weight-deform payload parsed with the sign
flag set to true, and the edge scale float. -/
def Vertex.parse (extra_vec4_count : Nat) (index_size : Nat) : ParseM VertexError Vertex :=
  fun s =>
  pbind (readVec3 VertexError.io s) fun pos s1 =>
    pbind (readVec3 VertexError.io s1) fun normal s2 =>
      pbind (readExact VertexError.io 8 s2) fun uvb s3 =>
        let uv := vec2Of uvb
        pbind (if extra_vec4_count ≠ 0 then
            pbind (readVec4List extra_vec4_count s3) fun vs s4 => .ok (some vs, s4)
          else .ok (none, s3)) fun extra s4 =>
          pbind (readExact VertexError.io 1 s4) fun tagb s5 =>
            ebind (emap VertexError.typeError (IndexSize.tryFrom index_size)) fun size =>
              pbind (WeightDeform.parse (tagb.getD 0 0) size true s5) fun wd s6 =>
                pbind (readExact VertexError.io 4 s6) fun eb s7 =>
                  .ok (⟨pos, normal, uv, extra, wd, u32FromLe eb⟩, s7)

/-- The Vertices collection of src/vertex.rs. -/
structure Vertices where
  inner : List Vertex
  size : Nat
deriving DecidableEq, Repr

/-- Run a parser a fixed number of times in sequence, modelling the count
driven record loops of the section decoders. -/
def parseCount (p : ParseM ε α) : Nat → ParseM ε (List α)
  | 0 => fun s => .ok ([], s)
  | k + 1 => fun s =>
    pbind (p s) fun a s1 =>
      pbind (parseCount p k s1) fun as s2 => .ok (a :: as, s2)

/-- Embedding of Vertices parse: a four byte signed little-endian count,
failing with NegativeSize when negative, then exactly that many vertex
records. -/
def Vertices.parse (extra_vec4_count : Nat) (index_size : Nat) : ParseM VertexError Vertices :=
  fun s =>
  pbind (readExact VertexError.io 4 s) fun sizeBytes s1 =>
    let size := i32FromLe sizeBytes
    if size < 0 then .error .negativeSize
    else
      pbind (parseCount (Vertex.parse extra_vec4_count index_size) size.toNat s1) fun vs s2 =>
        .ok (⟨vs, size.toNat⟩, s2)

/-! Embedding of src/surface.rs. -/

/-- The error enum of src/surface.rs. -/
inductive SurfaceError where
  | negativeSize
  | type (e : TypesError)
  | io
deriving DecidableEq, Repr

/-- The Surface struct: one index referencing a vertex. -/
structure Surface where
  index : Index
deriving DecidableEq, Repr

/-- Embedding of Surface parse: one index of the declared width, parsed
with the sign flag set to false. -/
def Surface.parse (index_size : Nat) : ParseM SurfaceError Surface := fun s =>
  ebind (emap SurfaceError.type (IndexSize.tryFrom index_size)) fun size =>
    pbind (emap SurfaceError.type (Index.parse size false s)) fun index s1 =>
      .ok (⟨index⟩, s1)

/-- The Surfaces collection of src/surface.rs. -/
structure Surfaces where
  len : Nat
  inner : List Surface
deriving DecidableEq, Repr

/-- Embedding of Surfaces parse: a four byte signed little-endian count,
failing with NegativeSize when negative, then exactly that many surface
records. -/
def Surfaces.parse (index_size : Nat) : ParseM SurfaceError Surfaces := fun s =>
  pbind (readExact SurfaceError.io 4 s) fun sizeBytes s1 =>
    let size := i32FromLe sizeBytes
    if size < 0 then .error .negativeSize
    else
      pbind (parseCount (Surface.parse index_size) size.toNat s1) fun surfs s2 =>
        .ok (⟨size.toNat, surfs⟩, s2)

/-! Embedding of src/texture.rs. -/

/-- The error enum of src/texture.rs. -/
inductive TextureError where
  | negativeSize
  | type (e : TypesError)
  | io
deriving DecidableEq, Repr

/-- The Texture struct: one text path. -/
structure Texture where
  path : PmxText
deriving DecidableEq, Repr

/-- Embedding of Texture parse: one PmxText under the header encoding. -/
def Texture.parse (encoding : TextEncoding) : ParseM TextureError Texture := fun s =>
  pbind (emap TextureError.type (PmxText.fromBytes encoding s)) fun path s1 =>
    .ok (⟨path⟩, s1)

/-- The Textures collection of src/texture.rs. -/
structure Textures where
  len : Nat
  inner : List Texture
deriving DecidableEq, Repr

/-- Embedding of Textures parse: a four byte signed little-endian count,
failing with NegativeSize when negative, then exactly that many texture
records. -/
def Textures.parse (encoding : TextEncoding) : ParseM TextureError Textures := fun s =>
  pbind (readExact TextureError.io 4 s) fun sizeBytes s1 =>
    let size := i32FromLe sizeBytes
    if size < 0 then .error .negativeSize
    else
      pbind (parseCount (Texture.parse encoding) size.toNat s1) fun texs s2 =>
        .ok (⟨size.toNat, texs⟩, s2)

/-! Embedding of src/pmx.rs. -/

/-- The error enum of src/pmx.rs. -/
inductive PmxError where
  | invalidTag
  | invalidEncoding
  | io
  | utf16Error
  | decodeUtf16
deriving DecidableEq, Repr

/-- The PmdText struct of src/pmx.rs: the length prefix and the raw bytes.
No decoded form is stored; decoding happens only in tryIntoString. -/
structure PmdText where
  len : Int
  raw_bytes : List Nat
deriving DecidableEq, Repr

/-- Embedding of PmdText from_bytes: a four byte signed little-endian
length, failing with the InvalidEncoding variant when negative, then
exactly that many raw bytes, stored without decoding. -/
def PmdText.fromBytes : ParseM PmxError PmdText := fun s =>
  pbind (readExact PmxError.io 4 s) fun lenBytes s1 =>
    let len := i32FromLe lenBytes
    if len < 0 then .error .invalidEncoding
    else
      pbind (readExact PmxError.io len.toNat s1) fun raw s2 => .ok (⟨len, raw⟩, s2)

/-- The from_utf16le duplicate inside src/pmx.rs: every failure, odd byte
count or invalid code unit sequence, is collapsed to the Utf16Error
variant. -/
def pmxFromUtf16le (v : List Nat) : Except PmxError (List Nat) :=
  if v.length % 2 = 1 then .error .utf16Error
  else
    match decodeUtf16Units (utf16UnitsLe v) with
    | .ok scalars => .ok scalars
    | .error _ => .error .utf16Error

/-- Embedding of PmdText try_into_string: the raw bytes are always decoded
as UTF-16LE, whatever encoding the header declared. -/
def PmdText.tryIntoString (t : PmdText) : Except PmxError (List Nat) :=
  pmxFromUtf16le t.raw_bytes

/-- The Encoding enum of src/pmx.rs. -/
inductive Encoding where
  | utf16le
  | utf8
deriving DecidableEq, Repr

/-- TryFrom of a byte for the pmx module Encoding: any byte other than 0
or 1 fails with the InvalidEncoding variant. -/
def Encoding.tryFrom (value : Nat) : Except PmxError Encoding :=
  match value with
  | 0 => .ok .utf16le
  | 1 => .ok .utf8
  | _ => .error .invalidEncoding

/-- The Globals struct of src/pmx.rs. -/
structure Globals where
  encoding : Encoding
  vec4_additional : Nat
  vert_idx_size : Nat
  tex_idx_size : Nat
  material_idx_size : Nat
  bone_idx_size : Nat
  morph_idx_size : Nat
  rb_idx_size : Nat
  additional : Option (List Nat)
deriving DecidableEq, Repr

/-- Embedding of Globals parse: one count byte, failing with the
InvalidEncoding variant when below 8, then exactly count raw bytes. When
the count exceeds 8 the tail beyond the first eight bytes is split off
into the additional field; split_off leaves the first eight bytes in
place, so indexing the original list at positions 0 to 7 is equivalent to
indexing the truncated one. -/
def Globals.parse : ParseM PmxError Globals := fun s =>
  pbind (readExact PmxError.io 1 s) fun cntb s1 =>
    let c := cntb.getD 0 0
    if c < 8 then .error .invalidEncoding
    else
      pbind (readExact PmxError.io c s1) fun globals s2 =>
        let additional := if 8 < c then some (globals.drop 8) else none
        ebind (Encoding.tryFrom (globals.getD 0 0)) fun enc =>
          .ok (⟨enc, globals.getD 1 0, globals.getD 2 0, globals.getD 3 0,
            globals.getD 4 0, globals.getD 5 0, globals.getD 6 0, globals.getD 7 0,
            additional⟩, s2)

/-- The ModelName struct of src/pmx.rs. -/
structure ModelName where
  localName : PmdText
  universal : PmdText
deriving DecidableEq, Repr

/-- The Comment struct of src/pmx.rs. -/
structure Comment where
  localName : PmdText
  universal : PmdText
deriving DecidableEq, Repr

/-- The Header struct of src/pmx.rs. The version float is carried as the
32-bit pattern produced by f32 from_le_bytes. -/
structure Header where
  version : Nat
  globals : Globals
  name : ModelName
  comment : Comment
deriving DecidableEq, Repr

/-- Embedding of Header parse: a four byte tag whose first three bytes
must be the ASCII letters P, M, X, a four byte little-endian version
float, the globals block, then the two localized name strings and the two
localized comment strings, each read as a PmdText. -/
def Header.parse : ParseM PmxError Header := fun s =>
  pbind (readExact PmxError.io 4 s) fun tag s1 =>
    if tag.take 3 ≠ [80, 77, 88] then .error .invalidTag
    else
      pbind (readExact PmxError.io 4 s1) fun ver s2 =>
        let version := u32FromLe ver
        pbind (Globals.parse s2) fun globals s3 =>
          pbind (PmdText.fromBytes s3) fun localName s4 =>
            pbind (PmdText.fromBytes s4) fun universalName s5 =>
              pbind (PmdText.fromBytes s5) fun localComment s6 =>
                pbind (PmdText.fromBytes s6) fun universalComment s7 =>
                  .ok (⟨version, globals, ⟨localName, universalName⟩,
                    ⟨localComment, universalComment⟩⟩, s7)

/-- The Pmx struct of src/pmx.rs: the parsed model owns only the header. -/
structure Pmx where
  header : Header
deriving DecidableEq, Repr

/-- Embedding of Pmx open. Opening and buffering the file are external
collaborators, so the model receives the byte stream directly; the body
parses the header and wraps it, exactly as the source does. -/
def Pmx.open : ParseM PmxError Pmx := fun s =>
  pbind (Header.parse s) fun header s1 => .ok (⟨header⟩, s1)

/-! Statement-side definitions: encodings and input fixtures used to state
the properties, written from the words of the specification. -/

/-- Little-endian byte encoding of an unsigned value at a given byte
width, the mathematical encoder over which the index round-trip property
is stated. -/
def leBytes : Nat → Nat → List Nat
  | 0, _ => []
  | w + 1, u => u % 256 :: leBytes w (u / 256)

/-- Two complement encoding of a signed value at a byte width, reducing
the value modulo two to the bit width before byte serialization. -/
def twosComplement (w : Nat) (v : Int) : Nat := (v % ((2 : Int) ^ (8 * w))).toNat

/-- Whether an Except result is a success. -/
def exceptIsOk : Except ε α → Bool
  | .ok _ => true
  | .error _ => false

/-- The minimal scenario A input of the specification: tag PMX followed by
a space, version 2.0 as a little-endian f32, a global count of 8, globals
declaring UTF-8 and all index widths 1, four empty length-prefixed
strings, then a vertex count of 0, a surface count of 0 and a texture
count of 0, twelve zero bytes in all. -/
def scenarioABytes : List Nat :=
  [80, 77, 88, 32, 0, 0, 0, 64, 8, 1, 0, 1, 1, 1, 1, 1, 1] ++
    List.replicate 16 0 ++ List.replicate 12 0

/-- A header stream declaring UTF-8 whose local model name consists of the
single byte 255, which is not well-formed UTF-8. -/
def headerInvalidUtf8Bytes : List Nat :=
  [80, 77, 88, 32, 0, 0, 0, 64, 8, 1, 0, 1, 1, 1, 1, 1, 1] ++
    [1, 0, 0, 0, 255] ++ List.replicate 12 0

/-- A header stream declaring UTF-8 whose local model name consists of the
single byte 65, the ASCII letter A, which is well-formed UTF-8 but has odd
length as a UTF-16LE byte sequence. -/
def headerAsciiNameBytes : List Nat :=
  [80, 77, 88, 32, 0, 0, 0, 64, 8, 1, 0, 1, 1, 1, 1, 1, 1] ++
    [1, 0, 0, 0, 65] ++ List.replicate 12 0

/-! Shared parsing lemmas. -/

@[simp] theorem pbind_ok (a : α) (s : List Nat)
    (f : α → List Nat → Except ε (β × List Nat)) : pbind (.ok (a, s)) f = f a s := rfl

@[simp] theorem pbind_error (e : ε) (f : α → List Nat → Except ε (β × List Nat)) :
    pbind (.error e) f = .error e := rfl

@[simp] theorem ebind_ok (a : α) (f : α → Except ε β) : ebind (.ok a) f = f a := rfl

@[simp] theorem ebind_error (e : ε) (f : α → Except ε β) :
    ebind (.error e) f = .error e := rfl

@[simp] theorem emap_ok (g : ε → ε2) (a : α) : emap g (.ok a) = .ok a := rfl

@[simp] theorem emap_error (g : ε → ε2) (e : ε) :
    emap g (.error e : Except ε α) = .error (g e) := rfl

theorem readExact_append (ioErr : ε) (a b : List Nat) (n : Nat) (h : a.length = n) :
    readExact ioErr n (a ++ b) = .ok (a, b) := by
  subst h
  simp [readExact, List.take_left, List.drop_left]

theorem readExact_one_cons (ioErr : ε) (b : Nat) (tail : List Nat) :
    readExact ioErr 1 (b :: tail) = .ok ([b], tail) := by
  have h : (1 : Nat) ≤ (b :: tail).length := by simp
  unfold readExact
  rw [if_pos h]
  rfl

theorem readExact_four_cons (ioErr : ε) (b0 b1 b2 b3 : Nat) (rest : List Nat) :
    readExact ioErr 4 (b0 :: b1 :: b2 :: b3 :: rest) = .ok ([b0, b1, b2, b3], rest) := by
  have h : (4 : Nat) ≤ (b0 :: b1 :: b2 :: b3 :: rest).length := by
    simp only [List.length_cons]
    omega
  unfold readExact
  rw [if_pos h]
  rfl

theorem indexParse_append (size : IndexSize) (sign : Bool) (raw rest : List Nat)
    (h : raw.length = size.byteCount) :
    Index.parse size sign (raw ++ rest) = .ok (⟨size, sign, indexValue size sign raw⟩, rest) := by
  simp [Index.parse, readExact_append _ _ _ _ h]

theorem indexParse_ok (size : IndexSize) (sign : Bool) (s : List Nat) (idx : Index)
    (rest : List Nat) (h : Index.parse size sign s = .ok (idx, rest)) :
    idx = ⟨size, sign, indexValue size sign (s.take size.byteCount)⟩ := by
  unfold Index.parse readExact at h
  by_cases hl : size.byteCount ≤ s.length
  · rw [if_pos hl] at h
    simp only [pbind_ok, Except.ok.injEq, Prod.mk.injEq] at h
    exact h.1.symm
  · rw [if_neg hl] at h
    simp only [pbind_error] at h
    cases h

theorem readVec3_append (ioErr : ε) (b rest : List Nat) (h : b.length = 12) :
    readVec3 ioErr (b ++ rest) = .ok (vec3Of b, rest) := by
  simp [readVec3, readExact_append _ _ _ _ h]

theorem liftIndexParse_append (size : IndexSize) (sign : Bool) (raw rest : List Nat)
    (h : raw.length = size.byteCount) :
    liftTypes (Index.parse size sign) (raw ++ rest) =
      .ok (⟨size, sign, indexValue size sign raw⟩, rest) := by
  simp [liftTypes, indexParse_append _ _ _ _ h]

theorem globalsParse_cons (c : Nat) (tail : List Nat) :
    Globals.parse (c :: tail) =
      (if c < 8 then .error .invalidEncoding
       else
         pbind (readExact PmxError.io c tail) fun globals s2 =>
           ebind (Encoding.tryFrom (globals.getD 0 0)) fun enc =>
             .ok (⟨enc, globals.getD 1 0, globals.getD 2 0, globals.getD 3 0,
               globals.getD 4 0, globals.getD 5 0, globals.getD 6 0, globals.getD 7 0,
               if 8 < c then some (globals.drop 8) else none⟩, s2)) := by
  simp only [Globals.parse, readExact_one_cons, pbind_ok, List.getD_cons_zero]

theorem verticesParse_cons4 (evc isz b0 b1 b2 b3 : Nat) (rest : List Nat) :
    Vertices.parse evc isz (b0 :: b1 :: b2 :: b3 :: rest) =
      (if i32FromLe [b0, b1, b2, b3] < 0 then .error .negativeSize
       else
         pbind (parseCount (Vertex.parse evc isz) (i32FromLe [b0, b1, b2, b3]).toNat rest)
           fun vs s2 => .ok (⟨vs, (i32FromLe [b0, b1, b2, b3]).toNat⟩, s2)) := by
  simp only [Vertices.parse, readExact_four_cons, pbind_ok]

theorem surfacesParse_cons4 (isz b0 b1 b2 b3 : Nat) (rest : List Nat) :
    Surfaces.parse isz (b0 :: b1 :: b2 :: b3 :: rest) =
      (if i32FromLe [b0, b1, b2, b3] < 0 then .error .negativeSize
       else
         pbind (parseCount (Surface.parse isz) (i32FromLe [b0, b1, b2, b3]).toNat rest)
           fun surfs s2 => .ok (⟨(i32FromLe [b0, b1, b2, b3]).toNat, surfs⟩, s2)) := by
  simp only [Surfaces.parse, readExact_four_cons, pbind_ok]

theorem texturesParse_cons4 (enc : TextEncoding) (b0 b1 b2 b3 : Nat) (rest : List Nat) :
    Textures.parse enc (b0 :: b1 :: b2 :: b3 :: rest) =
      (if i32FromLe [b0, b1, b2, b3] < 0 then .error .negativeSize
       else
         pbind (parseCount (Texture.parse enc) (i32FromLe [b0, b1, b2, b3]).toNat rest)
           fun texs s2 => .ok (⟨(i32FromLe [b0, b1, b2, b3]).toNat, texs⟩, s2)) := by
  simp only [Textures.parse, readExact_four_cons, pbind_ok]

theorem decodeText_ne_negativeLength (enc : TextEncoding) (raw : List Nat) :
    decodeText enc raw ≠ .error .negativeLength := by
  intro hc
  cases enc <;> simp only [decodeText] at hc
  · cases hx : fromUtf16le raw <;> rw [hx] at hc <;> simp at hc
  · cases hx : decodeUtf8 raw <;> rw [hx] at hc <;> simp at hc

/-! Claim C6: round trip of the variable-width index codec. -/

/-- C6, counterexample. The claim states that an unsigned index
round-trips by zero extension at every width, but at width 4 the source
reinterprets the four bytes as a signed 32-bit value regardless of the
sign flag: the little-endian encoding of 2147483648 parses, as unsigned,
to the value -2147483648 rather than 2147483648. -/
theorem index_width4_unsigned_counterexample :
    Index.parse .size4 false (leBytes 4 2147483648) = .ok (⟨.size4, false, -2147483648⟩, []) ∧
      (-2147483648 : Int) ≠ 2147483648 := by
  constructor
  · decide
  · decide

/-- C6, amended. For widths 1 and 2 the index codec round-trips every
representable value, sign-extending under the signed flag and
zero-extending under the unsigned flag; at width 4 the signed round trip
holds for every 32-bit signed value, while an unsigned value is
reinterpreted as signed, so it is recovered exactly below 2 to the 31 and
wraps by 2 to the 32 above, the bit pattern being preserved either way. -/
theorem index_parse_roundtrip :
    (∀ (v : Int) (rest : List Nat), -128 ≤ v → v < 128 →
      Index.parse .size1 true (leBytes 1 (twosComplement 1 v) ++ rest) =
        .ok (⟨.size1, true, v⟩, rest)) ∧
    (∀ (v : Int) (rest : List Nat), -32768 ≤ v → v < 32768 →
      Index.parse .size2 true (leBytes 2 (twosComplement 2 v) ++ rest) =
        .ok (⟨.size2, true, v⟩, rest)) ∧
    (∀ (v : Int) (rest : List Nat), -2147483648 ≤ v → v < 2147483648 →
      Index.parse .size4 true (leBytes 4 (twosComplement 4 v) ++ rest) =
        .ok (⟨.size4, true, v⟩, rest)) ∧
    (∀ (u : Nat) (rest : List Nat), u < 256 →
      Index.parse .size1 false (leBytes 1 u ++ rest) = .ok (⟨.size1, false, (u : Int)⟩, rest)) ∧
    (∀ (u : Nat) (rest : List Nat), u < 65536 →
      Index.parse .size2 false (leBytes 2 u ++ rest) = .ok (⟨.size2, false, (u : Int)⟩, rest)) ∧
    (∀ (u : Nat) (rest : List Nat), u < 4294967296 →
      Index.parse .size4 false (leBytes 4 u ++ rest) =
        .ok (⟨.size4, false,
          if 2147483648 ≤ u then (u : Int) - 4294967296 else (u : Int)⟩, rest)) := by
  refine ⟨?_, ?_, ?_, ?_, ?_, ?_⟩
  · intro v rest h1 h2
    rw [indexParse_append _ _ _ _ (by simp [leBytes, IndexSize.byteCount])]
    simp only [Except.ok.injEq, Prod.mk.injEq, Index.mk.injEq, true_and, and_true]
    simp [indexValue, i8FromLe, u8FromLe, leBytes, twosComplement]
    split <;> omega
  · intro v rest h1 h2
    rw [indexParse_append _ _ _ _ (by simp [leBytes, IndexSize.byteCount])]
    simp only [Except.ok.injEq, Prod.mk.injEq, Index.mk.injEq, true_and, and_true]
    simp [indexValue, i16FromLe, u16FromLe, leBytes, twosComplement]
    split <;> omega
  · intro v rest h1 h2
    rw [indexParse_append _ _ _ _ (by simp [leBytes, IndexSize.byteCount])]
    simp only [Except.ok.injEq, Prod.mk.injEq, Index.mk.injEq, true_and, and_true]
    simp [indexValue, i32FromLe, u32FromLe, leBytes, twosComplement]
    split <;> omega
  · intro u rest h
    rw [indexParse_append _ _ _ _ (by simp [leBytes, IndexSize.byteCount])]
    simp only [Except.ok.injEq, Prod.mk.injEq, Index.mk.injEq, true_and, and_true]
    simp [indexValue, u8FromLe, leBytes]
    omega
  · intro u rest h
    rw [indexParse_append _ _ _ _ (by simp [leBytes, IndexSize.byteCount])]
    simp only [Except.ok.injEq, Prod.mk.injEq, Index.mk.injEq, true_and, and_true]
    simp [indexValue, u16FromLe, leBytes]
    omega
  · intro u rest h
    rw [indexParse_append _ _ _ _ (by simp [leBytes, IndexSize.byteCount])]
    simp only [Except.ok.injEq, Prod.mk.injEq, Index.mk.injEq, true_and, and_true]
    simp [indexValue, i32FromLe, u32FromLe, leBytes]
    split <;> omega

/-- C6, witness: the signed width 1 round trip applied to the value -2
with a nonempty remainder. -/
theorem index_parse_roundtrip_witness :
    (-128 ≤ (-2 : Int) ∧ (-2 : Int) < 128) ∧
      Index.parse .size1 true (leBytes 1 (twosComplement 1 (-2)) ++ [7]) =
        .ok (⟨.size1, true, -2⟩, [7]) :=
  ⟨by decide, index_parse_roundtrip.1 (-2) [7] (by decide) (by decide)⟩

/-! Claim C7: the nil sentinel of the index codec. -/

/-- C7. Every parsed index reports nil exactly when its decoded value is
-1; an index parsed as unsigned with width 1 or width 2 is never nil; and
the four byte field of all 255 bytes parsed as unsigned decodes to -1 and
is reported nil. -/
theorem index_is_nil_characterization :
    (∀ (size : IndexSize) (sign : Bool) (s : List Nat) (idx : Index) (rest : List Nat),
      Index.parse size sign s = .ok (idx, rest) → (idx.isNil = true ↔ idx.value = -1)) ∧
    (∀ (s : List Nat) (idx : Index) (rest : List Nat),
      Index.parse .size1 false s = .ok (idx, rest) → idx.isNil = false) ∧
    (∀ (s : List Nat) (idx : Index) (rest : List Nat),
      Index.parse .size2 false s = .ok (idx, rest) → idx.isNil = false) ∧
    (Index.parse .size4 false [255, 255, 255, 255] = .ok (⟨.size4, false, -1⟩, []) ∧
      Index.isNil ⟨.size4, false, -1⟩ = true) := by
  refine ⟨?_, ?_, ?_, by decide, by decide⟩
  · intro size sign s idx rest h
    simp [Index.isNil]
  · intro s idx rest h
    have hv := indexParse_ok _ _ _ _ _ h
    subst hv
    simp [Index.isNil, indexValue]
  · intro s idx rest h
    have hv := indexParse_ok _ _ _ _ _ h
    subst hv
    simp [Index.isNil, indexValue]

/-- C7, witness: the width 1 unsigned conjunct applied to the byte 200,
whose parse succeeds with value 200 and is not nil. -/
theorem index_is_nil_characterization_witness :
    Index.parse .size1 false [200] = .ok (⟨.size1, false, 200⟩, []) ∧
      Index.isNil ⟨.size1, false, 200⟩ = false :=
  ⟨by decide, index_is_nil_characterization.2.1 [200] ⟨.size1, false, 200⟩ [] (by decide)⟩

/-! Claim C1: the top level decode entry point. -/

/-- C1, counterexample. The claim states the top level open parses the
header and then the vertex, surface and texture sections from the same
cursor, returning a model owning those collections. On the minimal
scenario A stream, open returns successfully after parsing only the
header: the twelve bytes holding the vertex, surface and texture counts
are still unread in the remainder, so none of the three sections was
parsed, and the returned model owns only the header. -/
theorem pmx_open_counterexample :
    Pmx.open scenarioABytes =
      .ok (⟨⟨1073741824, ⟨.utf8, 0, 1, 1, 1, 1, 1, 1, none⟩,
        ⟨⟨0, []⟩, ⟨0, []⟩⟩, ⟨⟨0, []⟩, ⟨0, []⟩⟩⟩⟩, List.replicate 12 0) ∧
      (List.replicate 12 0 : List Nat) ≠ [] := by
  constructor
  · decide
  · decide

/-- C1, amended. Pmx open parses only the header and returns a model
owning just that header: on the scenario A input both the header decoder
and open succeed with no error, producing the version 2.0 pattern, UTF-8
globals with all index widths 1, and empty name and comment pairs, while
the twelve section count bytes are left unconsumed on the cursor. -/
theorem pmx_open_scenarioA_header_only :
    Header.parse scenarioABytes =
      .ok (⟨1073741824, ⟨.utf8, 0, 1, 1, 1, 1, 1, 1, none⟩,
        ⟨⟨0, []⟩, ⟨0, []⟩⟩, ⟨⟨0, []⟩, ⟨0, []⟩⟩⟩, List.replicate 12 0) ∧
    Pmx.open scenarioABytes =
      .ok (⟨⟨1073741824, ⟨.utf8, 0, 1, 1, 1, 1, 1, 1, none⟩,
        ⟨⟨0, []⟩, ⟨0, []⟩⟩, ⟨⟨0, []⟩, ⟨0, []⟩⟩⟩⟩, List.replicate 12 0) := by
  constructor
  · decide
  · decide

/-! Claim C3: decoding of the header name and comment strings. -/

/-- C3, counterexample. The claim states the header strings are decoded
eagerly under the header-declared encoding, so that under UTF-8 a name
that is not well-formed UTF-8 makes the parse fail. In the source the
header uses PmdText, which stores length and raw bytes without decoding:
on a stream declaring UTF-8 whose local name is the single byte 255, not
well-formed UTF-8, Header parse succeeds and retains the raw byte. -/
theorem header_no_eager_decode_counterexample :
    decodeUtf8 [255] = none ∧
    Header.parse headerInvalidUtf8Bytes =
      .ok (⟨1073741824, ⟨.utf8, 0, 1, 1, 1, 1, 1, 1, none⟩,
        ⟨⟨1, [255]⟩, ⟨0, []⟩⟩, ⟨⟨0, []⟩, ⟨0, []⟩⟩⟩, []) := by
  constructor
  · decide
  · decide

/-- C3, amended. The header name and comment strings are not decoded at
parse time: Header parse stores only the length and the raw bytes and
succeeds regardless of their validity under the declared encoding, and the
lazy try_into_string decoder always decodes as UTF-16LE whatever encoding
the header declared: the single byte 65 is valid UTF-8, the header parse
retains it raw, and its lazy decode fails as an odd-length UTF-16LE
sequence even though the header declared UTF-8. -/
theorem header_text_lazy_utf16_decode :
    decodeUtf8 [65] = some [65] ∧
    Header.parse headerAsciiNameBytes =
      .ok (⟨1073741824, ⟨.utf8, 0, 1, 1, 1, 1, 1, 1, none⟩,
        ⟨⟨1, [65]⟩, ⟨0, []⟩⟩, ⟨⟨0, []⟩, ⟨0, []⟩⟩⟩, []) ∧
    PmdText.tryIntoString ⟨1, [65]⟩ = .error .utf16Error := by
  refine ⟨by decide, by decide, by decide⟩

/-! Claim C2: the signedness flag passed to the weight-deform decoder. -/

/-- C2, counterexample. The claim states Vertex parse invokes the
weight-deform decoder with the unsigned flag. The source passes true,
which selects the signed interpretation: a vertex whose Bdef1 payload is
the single index byte 255 decodes to the index value -1 under the parsed
sign flag true, whereas the unsigned interpretation of the same byte would
be 255. -/
theorem vertex_deform_signed_counterexample :
    Vertex.parse 0 1 (List.replicate 32 0 ++ [0, 255, 0, 0, 0, 0]) =
      .ok (⟨(0, 0, 0), (0, 0, 0), (0, 0), none, .bdef1 ⟨.size1, true, -1⟩, 0⟩, []) ∧
      indexValue .size1 false [255] = 255 ∧ (-1 : Int) ≠ 255 := by
  refine ⟨by decide, by decide, by decide⟩

/-- C2, amended. Vertex parse invokes WeightDeform parse with the index
size converted from its index-size parameter and the sign flag set to
true, the signed interpretation: after the 32 geometry bytes and the tag
byte, with no extra vectors, the whole parse is the weight-deform parse at
the converted size with sign true followed by the edge-scale read. -/
theorem vertex_parse_signed_deform :
    ∀ (pos12 nrm12 uv8 : List Nat) (t isz : Nat) (size : IndexSize) (rest : List Nat),
      pos12.length = 12 → nrm12.length = 12 → uv8.length = 8 →
      IndexSize.tryFrom isz = .ok size →
      Vertex.parse 0 isz (pos12 ++ (nrm12 ++ (uv8 ++ (t :: rest)))) =
        (pbind (WeightDeform.parse t size true rest) fun wd s6 =>
          pbind (readExact VertexError.io 4 s6) fun eb s7 =>
            .ok (⟨vec3Of pos12, vec3Of nrm12, vec2Of uv8, none, wd, u32FromLe eb⟩, s7)) := by
  intro pos12 nrm12 uv8 t isz size rest h1 h2 h3 htry
  simp only [Vertex.parse]
  rw [readVec3_append _ _ _ h1]
  simp only [pbind_ok]
  rw [readVec3_append _ _ _ h2]
  simp only [pbind_ok]
  rw [readExact_append _ _ _ _ h3]
  simp only [pbind_ok, ne_eq, not_true_eq_false, if_false, ite_self]
  norm_num
  rw [readExact_one_cons]
  simp [htry]

/-- C2, witness: the decomposition applied to an all-zero geometry prefix,
tag 0 and the index byte 5 at width 1. -/
theorem vertex_parse_signed_deform_witness :
    ((List.replicate 12 0 : List Nat).length = 12 ∧
      (List.replicate 8 0 : List Nat).length = 8 ∧
      IndexSize.tryFrom 1 = .ok .size1) ∧
    Vertex.parse 0 1 (List.replicate 12 0 ++ (List.replicate 12 0 ++
        (List.replicate 8 0 ++ (0 :: [5, 0, 0, 0, 0])))) =
      (pbind (WeightDeform.parse 0 .size1 true [5, 0, 0, 0, 0]) fun wd s6 =>
        pbind (readExact VertexError.io 4 s6) fun eb s7 =>
          .ok (⟨vec3Of (List.replicate 12 0), vec3Of (List.replicate 12 0),
            vec2Of (List.replicate 8 0), none, wd, u32FromLe eb⟩, s7)) :=
  ⟨⟨by simp, by simp, by decide⟩,
    vertex_parse_signed_deform (List.replicate 12 0) (List.replicate 12 0)
      (List.replicate 8 0) 0 1 .size1 [5, 0, 0, 0, 0] (by simp) (by simp) (by simp)
      (by decide)⟩

/-! Claim C5: the derived second weight of Bdef2 and Sdef records. -/

/-- C5. For a Bdef2 record the decoder reads the two indices and then
exactly four further bytes, one stored f32 weight: the remainder after the
record starts right after those four bytes, and the second weight is not
read but computed as the IEEE-754 binary32 value of one minus the stored
weight, bit for bit, for every stored pattern. The Sdef arm behaves the
same way, reading its three extra vectors after the single stored
weight. -/
theorem weight_deform_derived_weight :
    (∀ (size : IndexSize) (sign : Bool) (ib1 ib2 wb rest : List Nat),
      ib1.length = size.byteCount → ib2.length = size.byteCount → wb.length = 4 →
      WeightDeform.parse 1 size sign (ib1 ++ (ib2 ++ (wb ++ rest))) =
        .ok (.bdef2 ⟨size, sign, indexValue size sign ib1⟩
          ⟨size, sign, indexValue size sign ib2⟩
          (u32FromLe wb) (f32OneMinus (u32FromLe wb)), rest)) ∧
    (∀ (size : IndexSize) (sign : Bool) (ib1 ib2 wb cb r0b r1b rest : List Nat),
      ib1.length = size.byteCount → ib2.length = size.byteCount → wb.length = 4 →
      cb.length = 12 → r0b.length = 12 → r1b.length = 12 →
      WeightDeform.parse 3 size sign (ib1 ++ (ib2 ++ (wb ++ (cb ++ (r0b ++ (r1b ++ rest)))))) =
        .ok (.sdef ⟨size, sign, indexValue size sign ib1⟩
          ⟨size, sign, indexValue size sign ib2⟩
          (u32FromLe wb) (f32OneMinus (u32FromLe wb))
          (vec3Of cb) (vec3Of r0b) (vec3Of r1b), rest)) := by
  constructor
  · intro size sign ib1 ib2 wb rest h1 h2 h3
    simp only [WeightDeform.parse]
    rw [liftIndexParse_append _ _ _ _ h1]
    simp only [pbind_ok]
    rw [liftIndexParse_append _ _ _ _ h2]
    simp only [pbind_ok]
    rw [readExact_append _ _ _ _ h3]
    simp only [pbind_ok]
  · intro size sign ib1 ib2 wb cb r0b r1b rest h1 h2 h3 h4 h5 h6
    simp only [WeightDeform.parse]
    rw [liftIndexParse_append _ _ _ _ h1]
    simp only [pbind_ok]
    rw [liftIndexParse_append _ _ _ _ h2]
    simp only [pbind_ok]
    rw [readExact_append _ _ _ _ h3]
    simp only [pbind_ok]
    rw [readVec3_append _ _ _ h4]
    simp only [pbind_ok]
    rw [readVec3_append _ _ _ h5]
    simp only [pbind_ok]
    rw [readVec3_append _ _ _ h6]
    simp only [pbind_ok]

/-- C5, witness: the Bdef2 arm applied to one byte indices 3 and 4, the
stored weight pattern of 0.5 and a nonempty remainder: the derived second
weight is the pattern of 0.5 as well, computed, not read. -/
theorem weight_deform_derived_weight_witness :
    (([3] : List Nat).length = IndexSize.size1.byteCount ∧
      ([0, 0, 0, 63] : List Nat).length = 4) ∧
    WeightDeform.parse 1 .size1 true ([3] ++ ([4] ++ ([0, 0, 0, 63] ++ [9]))) =
      .ok (.bdef2 ⟨.size1, true, indexValue .size1 true [3]⟩
        ⟨.size1, true, indexValue .size1 true [4]⟩
        (u32FromLe [0, 0, 0, 63]) (f32OneMinus (u32FromLe [0, 0, 0, 63])), [9]) :=
  ⟨⟨by decide, by decide⟩,
    weight_deform_derived_weight.1 .size1 true [3] [4] [0, 0, 0, 63] [9]
      (by decide) (by decide) (by decide)⟩

/-! Claim C4: failure on a global-parameter count below 8. -/

/-- C4, counterexample. The claim states the failure on a small
global-parameter count is a dedicated InvalidGlobalCount error. The source
error enum has no such variant: the count byte 0 fails with the
InvalidEncoding variant, the same variant the encoding decoder returns for
an unknown encoding byte such as 9, so the error is shared, not
dedicated. -/
theorem globals_count_error_not_dedicated :
    Globals.parse [0] = .error .invalidEncoding ∧
      Encoding.tryFrom 9 = .error .invalidEncoding := by
  constructor
  · decide
  · decide

/-- C4, amended. For every global-parameter count byte value below 8,
Globals parse fails, with the InvalidEncoding variant, which the source
also uses for an unknown encoding byte; no dedicated global-count variant
exists. -/
theorem globals_parse_small_count_fails :
    ∀ (c : Nat) (rest : List Nat), c < 8 →
      Globals.parse (c :: rest) = .error .invalidEncoding := by
  intro c rest hc
  rw [globalsParse_cons, if_pos hc]

/-- C4, witness: the count byte 7 is rejected whatever follows it. -/
theorem globals_parse_small_count_fails_witness :
    (7 : Nat) < 8 ∧
      Globals.parse (7 :: [1, 1, 1, 1, 1, 1, 1, 1]) = .error .invalidEncoding :=
  ⟨by decide, globals_parse_small_count_fails 7 [1, 1, 1, 1, 1, 1, 1, 1] (by decide)⟩

/-! Claim C10: the global-parameter count byte is unsigned. -/

/-- C10. The count byte is compared as an unsigned value: every count from
8 up to 255 passes the count check and exactly that many parameter bytes
are then read, with any bytes beyond the eighth kept opaquely, so counts
128 to 255 are accepted rather than treated as negative; a stream with
fewer parameter bytes than the count fails with the IO error; and only the
byte values 0 to 7 are rejected by the count check. -/
theorem globals_count_unsigned_accept :
    (∀ (c : Nat) (params rest : List Nat) (e : Encoding),
      8 ≤ c → c < 256 → params.length = c →
      Encoding.tryFrom (params.getD 0 0) = .ok e →
      Globals.parse (c :: (params ++ rest)) =
        .ok (⟨e, params.getD 1 0, params.getD 2 0, params.getD 3 0, params.getD 4 0,
          params.getD 5 0, params.getD 6 0, params.getD 7 0,
          if 8 < c then some (params.drop 8) else none⟩, rest)) ∧
    (∀ (c : Nat) (tail : List Nat), 8 ≤ c → tail.length < c →
      Globals.parse (c :: tail) = .error .io) ∧
    (∀ (c : Nat) (rest : List Nat), c < 8 →
      Globals.parse (c :: rest) = .error .invalidEncoding) := by
  refine ⟨?_, ?_, ?_⟩
  · intro c params rest e h8 h256 hlen henc
    rw [globalsParse_cons c (params ++ rest), if_neg (by omega),
      readExact_append _ _ _ _ hlen]
    simp [List.getD] at henc
    simp [henc]
  · intro c tail h8 hlen
    rw [globalsParse_cons, if_neg (by omega)]
    unfold readExact
    rw [if_neg (by omega)]
    rfl
  · intro c rest hc
    rw [globalsParse_cons, if_pos hc]

/-- C10, witness: the count byte 128, read as unsigned, is accepted with
exactly 128 parameter bytes, the tail beyond the eighth byte being kept in
the additional field and the following stream untouched. -/
theorem globals_count_unsigned_accept_witness :
    ((8 : Nat) ≤ 128 ∧ (128 : Nat) < 256 ∧
      (1 :: List.replicate 127 2).length = 128 ∧
      Encoding.tryFrom ((1 :: List.replicate 127 2).getD 0 0) = .ok .utf8) ∧
      Globals.parse (128 :: ((1 :: List.replicate 127 2) ++ [9])) =
        .ok (⟨.utf8, (1 :: List.replicate 127 2).getD 1 0,
          (1 :: List.replicate 127 2).getD 2 0, (1 :: List.replicate 127 2).getD 3 0,
          (1 :: List.replicate 127 2).getD 4 0, (1 :: List.replicate 127 2).getD 5 0,
          (1 :: List.replicate 127 2).getD 6 0, (1 :: List.replicate 127 2).getD 7 0,
          if 8 < 128 then some ((1 :: List.replicate 127 2).drop 8) else none⟩, [9]) :=
  ⟨⟨by decide, by decide, by simp, by rfl⟩,
    globals_count_unsigned_accept.1 128 (1 :: List.replicate 127 2) [9] .utf8
      (by decide) (by decide) (by simp) (by rfl)⟩

/-! Claim C8: negative section counts fail with the NegativeSize error. -/

/-- C8. For the vertex, surface and texture section decoders alike, a four
byte little-endian signed count that is negative makes the parse fail with
the NegativeSize error of the respective module, with no record read: the
total function returns the error rather than treating the count as zero or
as a huge unsigned length. -/
theorem section_negative_count_fails :
    ∀ (b0 b1 b2 b3 : Nat) (rest : List Nat) (evc isz : Nat) (enc : TextEncoding),
      i32FromLe [b0, b1, b2, b3] < 0 →
      Vertices.parse evc isz (b0 :: b1 :: b2 :: b3 :: rest) = .error .negativeSize ∧
        Surfaces.parse isz (b0 :: b1 :: b2 :: b3 :: rest) = .error .negativeSize ∧
        Textures.parse enc (b0 :: b1 :: b2 :: b3 :: rest) = .error .negativeSize := by
  intro b0 b1 b2 b3 rest evc isz enc h
  refine ⟨?_, ?_, ?_⟩
  · rw [verticesParse_cons4, if_pos h]
  · rw [surfacesParse_cons4, if_pos h]
  · rw [texturesParse_cons4, if_pos h]

/-- C8, witness: the count bytes 255 255 255 255, the two complement form
of -1, are rejected by all three section decoders. -/
theorem section_negative_count_fails_witness :
    i32FromLe [255, 255, 255, 255] < 0 ∧
      (Vertices.parse 0 1 [255, 255, 255, 255] = .error .negativeSize ∧
        Surfaces.parse 1 [255, 255, 255, 255] = .error .negativeSize ∧
        Textures.parse .utf8 [255, 255, 255, 255] = .error .negativeSize) :=
  ⟨by decide, section_negative_count_fails 255 255 255 255 [] 0 1 .utf8 (by decide)⟩

/-! Claim C9: the text codec of the texture and material sections. -/

/-- C9. PmxText from_bytes fails with NegativeLength exactly when the four
byte little-endian signed length prefix is negative; a zero length
succeeds with the empty string; given a nonnegative length and enough
bytes, the parse succeeds exactly when the bytes decode under the declared
encoding, invalid UTF-8 failing under UTF-8 and, under UTF-16LE, an odd
byte length failing with the Utf16 error and an invalid code unit sequence
failing as well, witnessed on the single byte 255 and the lone high
surrogate. -/
theorem pmx_text_from_bytes_characterization :
    (∀ (enc : TextEncoding) (l0 l1 l2 l3 : Nat) (rest : List Nat),
      i32FromLe [l0, l1, l2, l3] < 0 →
      PmxText.fromBytes enc (l0 :: l1 :: l2 :: l3 :: rest) = .error .negativeLength) ∧
    (∀ (enc : TextEncoding) (s : List Nat),
      PmxText.fromBytes enc s = .error .negativeLength →
      4 ≤ s.length ∧ i32FromLe (s.take 4) < 0) ∧
    (∀ (enc : TextEncoding) (rest : List Nat),
      PmxText.fromBytes enc (0 :: 0 :: 0 :: 0 :: rest) = .ok (⟨[], enc, []⟩, rest)) ∧
    (∀ (enc : TextEncoding) (lb data rest : List Nat),
      lb.length = 4 → 0 ≤ i32FromLe lb → data.length = (i32FromLe lb).toNat →
      (exceptIsOk (PmxText.fromBytes enc (lb ++ (data ++ rest))) = true ↔
        exceptIsOk (decodeText enc data) = true)) ∧
    (∀ (d : List Nat), d.length % 2 = 1 → fromUtf16le d = .error .utf16LeError) ∧
    (decodeUtf8 [255] = none ∧ fromUtf16le [0, 216] = .error .decodeUtf16Error) := by
  refine ⟨?_, ?_, ?_, ?_, ?_, by decide, by decide⟩
  · intro enc l0 l1 l2 l3 rest h
    simp only [PmxText.fromBytes]
    rw [readExact_four_cons]
    simp only [pbind_ok]
    rw [if_pos h]
  · intro enc s h
    by_cases hl : 4 ≤ s.length
    · refine ⟨hl, ?_⟩
      by_cases hneg : i32FromLe (s.take 4) < 0
      · exact hneg
      · exfalso
        have hre : readExact TypesError.io 4 s = .ok (s.take 4, s.drop 4) := by
          unfold readExact
          rw [if_pos hl]
        simp only [PmxText.fromBytes, hre, pbind_ok] at h
        rw [if_neg hneg] at h
        by_cases hl2 : (i32FromLe (s.take 4)).toNat ≤ (s.drop 4).length
        · have hre2 : readExact TypesError.io (i32FromLe (s.take 4)).toNat (s.drop 4) =
              .ok ((s.drop 4).take (i32FromLe (s.take 4)).toNat,
                (s.drop 4).drop (i32FromLe (s.take 4)).toNat) := by
            unfold readExact
            rw [if_pos hl2]
          rw [hre2] at h
          simp only [pbind_ok] at h
          cases hd : decodeText enc ((s.drop 4).take (i32FromLe (s.take 4)).toNat) with
          | error e =>
            rw [hd] at h
            simp only [ebind_error, Except.error.injEq] at h
            subst h
            exact decodeText_ne_negativeLength _ _ hd
          | ok d =>
            rw [hd] at h
            simp only [ebind_ok] at h
            simp at h
        · have hre2 : readExact TypesError.io (i32FromLe (s.take 4)).toNat (s.drop 4) =
              .error .io := by
            unfold readExact
            rw [if_neg hl2]
          rw [hre2] at h
          simp at h
    · have hre : readExact TypesError.io 4 s = .error .io := by
        unfold readExact
        rw [if_neg hl]
      simp only [PmxText.fromBytes, hre, pbind_error] at h
      simp at h
  · intro enc rest
    simp only [PmxText.fromBytes]
    rw [readExact_four_cons]
    simp only [pbind_ok]
    norm_num [i32FromLe, u32FromLe]
    have h0 : readExact TypesError.io 0 rest = .ok ([], rest) := by
      unfold readExact
      simp
    rw [h0]
    simp only [pbind_ok]
    cases enc <;> rfl
  · intro enc lb data rest hlb hnn hdl
    have hre : readExact TypesError.io 4 (lb ++ (data ++ rest)) = .ok (lb, data ++ rest) :=
      readExact_append _ _ _ _ hlb
    simp only [PmxText.fromBytes, hre, pbind_ok]
    rw [if_neg (by omega)]
    rw [readExact_append _ _ _ _ hdl]
    simp only [pbind_ok]
    cases hd : decodeText enc data with
    | error e => simp [exceptIsOk, hd]
    | ok d => simp [exceptIsOk, hd]
  · intro d hd
    unfold fromUtf16le
    rw [if_pos hd]

/-- C9, witness: the success iff valid conjunct applied under UTF-8 to a
length prefix of one and the invalid byte 255: both sides of the
equivalence are false, the parse failing exactly because the byte is not
well-formed UTF-8. -/
theorem pmx_text_from_bytes_characterization_witness :
    (([1, 0, 0, 0] : List Nat).length = 4 ∧ 0 ≤ i32FromLe [1, 0, 0, 0] ∧
      ([255] : List Nat).length = (i32FromLe [1, 0, 0, 0]).toNat) ∧
    (exceptIsOk (PmxText.fromBytes .utf8 ([1, 0, 0, 0] ++ ([255] ++ []))) = true ↔
      exceptIsOk (decodeText .utf8 [255]) = true) :=
  ⟨⟨by decide, by decide, by decide⟩,
    pmx_text_from_bytes_characterization.2.2.2.1 .utf8 [1, 0, 0, 0] [255] []
      (by decide) (by decide) (by decide)⟩

end Sermmde
